import Mathlib

/-!
Verification development for the room-rant-backend messaging relay
(`src/index.py`).  The file embeds the core publish/subscribe mechanism:

* the HTTP handlers `JoinRoom.post` and `SendMessage.post` as pure
  functions on an explicit server state;
* the SSE generator `stream_messages.event_stream` as a small-step
  transition system over interleaved publisher/session actions;
* the LIVE loop of the generator (queue wait with 30-unit timeout,
  keep-alive pings) as a function over the sequence of queue outcomes.

Machine-level nondeterminism of the source (uuid4 ids, wall-clock
timestamps, which `Queue.put` calls raise) is passed in as parameters.
-/

namespace RoomRant

/-- Pointwise update of a total map, used to model in-place mutation of
`defaultdict` entries and queue objects. -/
def upd {κ α : Type} [DecidableEq κ] (f : κ → α) (k : κ) (v : α) : κ → α :=
  fun x => if x = k then v else f x



/-- Python truthiness of a `data.get(...)` result: `None` and the empty
string are falsy, every other string is truthy. -/
def truthy : Option String → Bool
  | none => false
  | some s => s != ""

/-- The JSON body of a `POST /rooms/<id>/join` request, after
`request.get_json()`; absent keys give `none` (Python `None`). -/
structure JoinRoomRequest where
  user_id : Option String
  user_name : Option String
deriving DecidableEq

/-- The JSON body of a `POST /rooms/<id>/messages` request. -/
structure SendMessageRequest where
  user_id : Option String
  user_name : Option String
  message : Option String
deriving DecidableEq

/-- The JSON envelope the handlers return (the `data` payload is reduced
to the `message_id` field, the only part the claims mention). -/
structure ApiResponse where
  status : Nat
  success : Bool
  message : String
  message_id : Option String
deriving DecidableEq

def invalidJoinResp : ApiResponse :=
  { status := 400, success := false,
    message := "user_id and user_name are required", message_id := none }

def invalidSendResp : ApiResponse :=
  { status := 400, success := false,
    message := "user_id, user_name, and message are required", message_id := none }

def roomNotFoundResp : ApiResponse :=
  { status := 404, success := false,
    message := "Room not found", message_id := none }

/-- The message dict built by `SendMessage.post`; field names are the
dict keys of the source (the content field is keyed `"message"`). -/
structure Message where
  id : String
  user_id : String
  user_name : String
  message : String
  timestamp : String
  room_id : String
deriving DecidableEq

/-- String escaping of `json.dumps` restricted to backslash and quote;
control-character escapes are not modelled (no claim depends on them). -/
def jsonEscape (s : String) : String :=
  String.join (s.data.map fun c =>
    if c = '\\' then "\\\\" else if c = '"' then "\\\"" else String.singleton c)

def jsonString (s : String) : String :=
  "\"" ++ jsonEscape s ++ "\""

/-- The key/value pairs of the message dict, in insertion order. -/
def msgPairs (m : Message) : List (String × String) :=
  [("id", m.id), ("user_id", m.user_id), ("user_name", m.user_name),
   ("message", m.message), ("timestamp", m.timestamp), ("room_id", m.room_id)]

/-- `json.dumps(message)` with its default separators. -/
def msgJson (m : Message) : String :=
  "\x7b" ++ String.intercalate ", "
    ((msgPairs m).map fun p => jsonString p.1 ++ ": " ++ jsonString p.2) ++ "\x7d"

/-- SSE framing used by both the fan-out `put` and the generator yields:
the literal text is the f-string `"data: ..."` followed by a blank line. -/
def sseFrame (payload : String) : String :=
  "data: " ++ payload ++ "\n\n"

/-- The keep-alive payload of the literal yielded on `queue.Empty`. -/
def pingPayload : String := "\x7b\"type\": \"ping\"\x7d"

/-- The keep-alive frame, exactly the literal at line 369 of the source. -/
def pingFrame : String := "data: \x7b\"type\": \"ping\"\x7d\n\n"

/-- The message dict literal of `SendMessage.post` (lines 268-275):
`msg_id` stands for the `uuid.uuid4()` draw and `ts` for
`datetime.now().isoformat()`, both supplied by the environment. -/
def mkMessage (room_id : String) (req : SendMessageRequest) (msg_id ts : String) : Message :=
  { id := msg_id,
    user_id := req.user_id.getD "",
    user_name := req.user_name.getD "",
    message := req.message.getD "",
    timestamp := ts,
    room_id := room_id }

/-- One pass of the broadcast loop (lines 282-287):
`for client in room_clients[room_id]: try: client.put(frame) except:
room_clients[room_id].remove(client)`.  Clients are queue identities
(`Nat`); `qs` maps each queue id to its contents; `bad c` says whether
`put` on queue `c` raises.  The Python list iterator is an index `i`
into the current list, so a `remove` of the element just visited shifts
the successor to position `i` and the iterator then fetches position
`i + 1`, skipping it.  `fuel` only bounds the recursion: the index grows
each step while the list never grows, so `cl.length` iterations always
reach the terminating branch. -/
def fanoutGo (frame : String) (bad : Nat → Bool) :
    Nat → List Nat → (Nat → List String) → Nat → List Nat × (Nat → List String)
  | 0, cl, qs, _ => (cl, qs)
  | fuel + 1, cl, qs, i =>
    if h : i < cl.length then
      if bad (cl.get ⟨i, h⟩) then
        fanoutGo frame bad fuel (cl.erase (cl.get ⟨i, h⟩)) qs (i + 1)
      else
        fanoutGo frame bad fuel cl
          (upd qs (cl.get ⟨i, h⟩) (qs (cl.get ⟨i, h⟩) ++ [frame])) (i + 1)
    else (cl, qs)

/-- The broadcast loop entered at iterator position 0. -/
def fanoutIter (frame : String) (cl : List Nat) (qs : Nat → List String)
    (bad : Nat → Bool) : List Nat × (Nat → List String) :=
  fanoutGo frame bad cl.length cl qs 0

/-- The module-level stores: `room_messages` and `room_clients` are
`defaultdict(list)`; `queues` holds the contents of every client queue
object; `bad` records which queues fail on `put`. -/
structure ServerState where
  room_messages : String → List Message
  room_clients : String → List Nat
  queues : Nat → List String
  bad : Nat → Bool

def initialServerState : ServerState :=
  { room_messages := fun _ => [],
    room_clients := fun _ => [],
    queues := fun _ => [],
    bad := fun _ => false }

/-- `JoinRoom.post` (lines 179-210): field validation, then the
hardcoded room-existence check, then success; touches no state. -/
def joinRoomPost (room_id : String) (req : JoinRoomRequest) : ApiResponse :=
  if !truthy req.user_id || !truthy req.user_name then
    invalidJoinResp
  else if room_id ≠ "room1a2b3c" then
    roomNotFoundResp
  else
    { status := 200, success := true,
      message := "Successfully joined room " ++ room_id, message_id := none }

/-- `SendMessage.post` (lines 244-297): validation, room check, message
creation, append to `room_messages`, broadcast under `clients_lock`,
success response. -/
def sendMessagePost (room_id : String) (req : SendMessageRequest) (msg_id ts : String)
    (st : ServerState) : ApiResponse × ServerState :=
  if !(truthy req.user_id && truthy req.user_name && truthy req.message) then
    (invalidSendResp, st)
  else if room_id ≠ "room1a2b3c" then
    (roomNotFoundResp, st)
  else
    let msg := mkMessage room_id req msg_id ts
    let newLog := upd st.room_messages room_id (st.room_messages room_id ++ [msg])
    let st1 : ServerState := { st with room_messages := newLog }
    let fr := fanoutIter (sseFrame (msgJson msg)) (st1.room_clients room_id) st1.queues st1.bad
    let st2 : ServerState :=
      { st1 with room_clients := upd st1.room_clients room_id fr.1, queues := fr.2 }
    ({ status := 200, success := true,
       message := "Message sent successfully", message_id := some msg_id }, st2)

/-- The `finally` cleanup of `event_stream` (lines 372-376):
`if client_queue in room_clients[room_id]: room_clients[room_id].remove(client_queue)`. -/
def removeClient (cl : List Nat) (sid : Nat) : List Nat :=
  if sid ∈ cl then cl.erase sid else cl

/-!
## Interleaving semantics of stream sessions and publishes

`event_stream` (lines 347-376) and the broadcast part of
`SendMessage.post` (lines 277-287) race on the shared room state.  Each
atomic region of the source becomes one `Action`; a concrete thread
schedule is a list of actions.  The room is the single hardcoded one, so
the state keeps only its log and client list.  Session emissions (`yield`
values) are tracked as the underlying message payloads; the SSE framing
of each emission is the injective `sseFrame (msgJson m)` map treated in
the serialization section above.
-/

/-- Phases of the `event_stream` generator: before registration, the
replay `for` loop (holding its iterator index), the LIVE `while` loop,
and terminated (the `finally` has run). -/
inductive Phase where
  | connecting
  | replaying (i : Nat)
  | live
  | closed
deriving DecidableEq

/-- Per-session local state: generator phase and what it has yielded. -/
structure Sess where
  phase : Phase
  out : List String
deriving DecidableEq

/-- Shared room state plus per-session state.  `queues sid` is the
contents of session `sid`'s `client_queue`; `bad` marks queues whose
`put` raises (environment choice, fixed per run). -/
structure Config where
  log : List String
  clients : List Nat
  queues : Nat → List String
  sess : Nat → Sess
  bad : Nat → Bool

/-- Why a session leaves the LIVE loop; the cleanup the source runs is
identical for every cause. -/
inductive ExitCause where
  | clientDisconnect
  | deliveryError
  | emitError
deriving DecidableEq

/-- Atomic steps of the interleaved system, one per atomic region of the
source: `register` is the locked append at lines 353-354; `replayStep`
is one iteration of the replay `for` over the live list (line 358);
`deliver` is a successful `client_queue.get` plus its `yield` (365-366);
`close` is the `finally` cleanup (372-376); `appendLog` is line 278
(outside `clients_lock`); `fanout` is the locked broadcast loop
(281-287). -/
inductive Action where
  | register (sid : Nat)
  | replayStep (sid : Nat)
  | deliver (sid : Nat)
  | close (sid : Nat) (cause : ExitCause)
  | appendLog (m : String)
  | fanout (m : String)
deriving DecidableEq

/-- One atomic step.  Steps whose guard does not hold (e.g. delivering
to an empty queue, which blocks) leave the configuration unchanged. -/
def step (cfg : Config) : Action → Config
  | .register sid =>
    if (cfg.sess sid).phase = Phase.connecting then
      { cfg with clients := cfg.clients ++ [sid],
                 queues := upd cfg.queues sid [],
                 sess := upd cfg.sess sid { phase := Phase.replaying 0, out := (cfg.sess sid).out } }
    else cfg
  | .replayStep sid =>
    match (cfg.sess sid).phase with
    | Phase.replaying i =>
      if h : i < cfg.log.length then
        let s : Sess := { phase := Phase.replaying (i + 1), out := (cfg.sess sid).out ++ [cfg.log.get ⟨i, h⟩] }
        { cfg with sess := upd cfg.sess sid s }
      else
        let s : Sess := { phase := Phase.live, out := (cfg.sess sid).out }
        { cfg with sess := upd cfg.sess sid s }
    | _ => cfg
  | .deliver sid =>
    if (cfg.sess sid).phase = Phase.live then
      match cfg.queues sid with
      | [] => cfg
      | m :: rest =>
        { cfg with queues := upd cfg.queues sid rest,
                   sess := upd cfg.sess sid { phase := Phase.live, out := (cfg.sess sid).out ++ [m] } }
    else cfg
  | .close sid _ =>
    if (cfg.sess sid).phase = Phase.closed then cfg
    else
      { cfg with clients := removeClient cfg.clients sid,
                 sess := upd cfg.sess sid { phase := Phase.closed, out := (cfg.sess sid).out } }
  | .appendLog m => { cfg with log := cfg.log ++ [m] }
  | .fanout m =>
    let fr := fanoutIter m cfg.clients cfg.queues cfg.bad
    { cfg with clients := fr.1, queues := fr.2 }

/-- Run a schedule of atomic steps. -/
def run (cfg : Config) : List Action → Config
  | [] => cfg
  | a :: rest => run (step cfg a) rest

/-- Empty room, no registered clients, every session not yet started,
no failing queues. -/
def cfg0 : Config :=
  { log := [],
    clients := [],
    queues := fun _ => [],
    sess := fun _ => { phase := Phase.connecting, out := [] },
    bad := fun _ => false }

/-- The two atomic steps of one publish (log append, then locked fan-out). -/
def pubActs (m : String) : List Action :=
  [Action.appendLog m, Action.fanout m]

/-- A sequence of publishes, each completing before the next starts. -/
def pubsActs (ms : List String) : List Action :=
  ms.flatMap pubActs

/-- The replay loop of a session whose room log has `n` entries: `n`
emitting iterations plus the final iteration that exits the `for`. -/
def replayActs (sid n : Nat) : List Action :=
  List.replicate (n + 1) (Action.replayStep sid)

/-- Publishes each followed by the session draining its queue. -/
def liveActs (sid : Nat) (ms : List String) : List Action :=
  ms.flatMap fun m => pubActs m ++ [Action.deliver sid]

/-- A session against sequential publishes: `before` published first,
then the session connects and replays, then `after` is published and
consumed live. -/
def seqSession (sid : Nat) (before after : List String) : List Action :=
  pubsActs before ++ [Action.register sid] ++ replayActs sid before.length ++ liveActs sid after

/-!
## The LIVE loop in isolation (keep-alives)

Lines 362-371: `while True: try: message = client_queue.get(timeout=30);
yield message; except queue.Empty: yield ping; except: break`.  One
iteration is driven by the outcome of the `get` call; `GetResult.empty`
means 30 full time units elapsed with nothing queued, `item` means a
message arrived within the timeout, `error` is any other exception. -/
inductive GetResult where
  | item (s : String)
  | empty
  | error
deriving DecidableEq

/-- Emissions of the LIVE loop over a sequence of `get` outcomes; the
loop keeps running (remains LIVE) after `item` and `empty`, and breaks
on `error`. -/
def liveRun : List GetResult → List String
  | [] => []
  | GetResult.item s :: rest => s :: liveRun rest
  | GetResult.empty :: rest => pingFrame :: liveRun rest
  | GetResult.error :: _ => []

/-- Total idle time represented by an all-`empty` outcome sequence: each
`empty` is exactly 30 elapsed time units. -/
def idleElapsed (rs : List GetResult) : Nat :=
  30 * rs.length

/-- Modelled from the spec's words: the field set §3 asserts for a
Message record, used only for comparison against the embedding of the
source's message dict. -/
def specMessageFields : List String :=
  ["id", "user_id", "user_name", "text", "timestamp", "room_id"]

/-- Three registered client queues in the room; `put` on queue 0 raises. -/
def c2state : ServerState :=
  { room_messages := fun _ => [],
    room_clients := fun r => if r = "room1a2b3c" then [0, 1, 2] else [],
    queues := fun _ => [],
    bad := fun n => n == 0 }

def c2req : SendMessageRequest :=
  { user_id := some "u", user_name := some "n", message := some "boom" }

/-- A publish racing the connect/replay window: the log append lands
before the session registers, the fan-out lands after, so the message is
both replayed from the log and drained from the queue. -/
def c1trace : List Action :=
  [Action.appendLog "hi", Action.register 0, Action.fanout "hi",
   Action.replayStep 0, Action.replayStep 0, Action.deliver 0]

/-- Two sessions go live on the empty room, then two publishes race:
both `append`s (outside `clients_lock`) land before either locked
fan-out, and the fan-outs run in the opposite order. -/
def c3trace : List Action :=
  [Action.register 0, Action.replayStep 0, Action.register 1, Action.replayStep 1,
   Action.appendLog "m1", Action.appendLog "m2",
   Action.fanout "m2", Action.fanout "m1",
   Action.deliver 0, Action.deliver 0, Action.deliver 1, Action.deliver 1]

/-- Steps available while two live subscribers and arbitrary publishers
share the room: log appends, locked fan-outs, and the two sessions
draining their own queues. -/
def broadcastAct : Action → Bool
  | Action.appendLog _ => true
  | Action.fanout _ => true
  | Action.deliver sid => sid == 0 || sid == 1
  | _ => false

/-- Sessions 0 and 1 are live members with healthy queues, and each has
emitted exactly the fanned-out messages that are not still sitting in
its queue — in particular both agree on `emitted ++ queued`. -/
def BothLiveInv (cfg : Config) : Prop :=
  cfg.clients = [0, 1] ∧
  (cfg.sess 0).phase = Phase.live ∧ (cfg.sess 1).phase = Phase.live ∧
  cfg.bad 0 = false ∧ cfg.bad 1 = false ∧
  (cfg.sess 0).out ++ cfg.queues 0 = (cfg.sess 1).out ++ cfg.queues 1

/-- Both sessions live on the empty room with empty queues. -/
def cfgLive : Config :=
  { log := [],
    clients := [0, 1],
    queues := fun _ => [],
    sess := fun _ => { phase := Phase.live, out := [] },
    bad := fun _ => false }

/-- Two racing publishes fanned out in opposite order, then both
sessions drain. -/
def c3wtrace : List Action :=
  [Action.appendLog "a", Action.appendLog "b", Action.fanout "b", Action.fanout "a",
   Action.deliver 0, Action.deliver 0, Action.deliver 1, Action.deliver 1]

/-- What the `finally` guarantee needs: the session's handle occurs at
most once in the list, never before it registers, and never after it
closed. -/
def CleanInv (sid : Nat) (cfg : Config) : Prop :=
  cfg.clients.count sid ≤ 1 ∧
  ((cfg.sess sid).phase = Phase.connecting → sid ∉ cfg.clients) ∧
  ((cfg.sess sid).phase = Phase.closed → sid ∉ cfg.clients)

/-- A full session that closes right after replay. -/
def c5wtrace : List Action :=
  [Action.register 0, Action.replayStep 0, Action.close 0 ExitCause.clientDisconnect]

/-! ## Helper lemmas -/

theorem upd_same {κ α : Type} [DecidableEq κ] (f : κ → α) (k : κ) (v : α) :
    upd f k v k = v := by
  simp [upd]

theorem upd_ne {κ α : Type} [DecidableEq κ] (f : κ → α) (k x : κ) (v : α) (h : x ≠ k) :
    upd f k v x = f x := by
  simp [upd, h]

theorem upd_upd {κ α : Type} [DecidableEq κ] (f : κ → α) (k : κ) (v w : α) :
    upd (upd f k v) k w = upd f k w := by
  funext x
  by_cases hx : x = k <;> simp [upd, hx]

theorem upd_self {κ α : Type} [DecidableEq κ] (f : κ → α) (k : κ) (v : α) (h : f k = v) :
    upd f k v = f := by
  funext x
  by_cases hx : x = k <;> simp [upd, hx, h]

theorem fanoutGo_clients_sublist (frame : String) (bad : Nat → Bool) :
    ∀ (fuel : Nat) (cl : List Nat) (qs : Nat → List String) (i : Nat),
      List.Sublist (fanoutGo frame bad fuel cl qs i).1 cl := by
  intro fuel
  induction fuel with
  | zero => intro cl qs i; exact List.Sublist.refl cl
  | succ k ih =>
    intro cl qs i
    rw [fanoutGo]
    by_cases h : i < cl.length
    · rw [dif_pos h]
      by_cases hb : bad (cl.get ⟨i, h⟩)
      · rw [if_pos hb]
        exact (ih (cl.erase (cl.get ⟨i, h⟩)) qs (i + 1)).trans (List.erase_sublist _ _)
      · rw [if_neg hb]
        exact ih cl _ (i + 1)
    · rw [dif_neg h]

theorem fanoutGo_queues_not_mem (frame : String) (bad : Nat → Bool) :
    ∀ (fuel : Nat) (cl : List Nat) (qs : Nat → List String) (i x : Nat),
      x ∉ cl → (fanoutGo frame bad fuel cl qs i).2 x = qs x := by
  intro fuel
  induction fuel with
  | zero => intro cl qs i x _; rfl
  | succ k ih =>
    intro cl qs i x hx
    rw [fanoutGo]
    by_cases h : i < cl.length
    · rw [dif_pos h]
      by_cases hb : bad (cl.get ⟨i, h⟩)
      · rw [if_pos hb]
        exact ih _ qs (i + 1) x (fun hmem => hx (List.mem_of_mem_erase hmem))
      · rw [if_neg hb]
        rw [ih cl _ (i + 1) x hx]
        exact upd_ne qs (cl.get ⟨i, h⟩) x _ (fun he => hx (he ▸ List.get_mem cl i h))
    · rw [dif_neg h]

theorem fanoutIter_clients_sublist (frame : String) (cl : List Nat)
    (qs : Nat → List String) (bad : Nat → Bool) :
    List.Sublist (fanoutIter frame cl qs bad).1 cl :=
  fanoutGo_clients_sublist frame bad cl.length cl qs 0

theorem fanoutIter_queues_not_mem (frame : String) (cl : List Nat)
    (qs : Nat → List String) (bad : Nat → Bool) (x : Nat) (hx : x ∉ cl) :
    (fanoutIter frame cl qs bad).2 x = qs x :=
  fanoutGo_queues_not_mem frame bad cl.length cl qs 0 x hx

theorem liveRun_all_empty :
    ∀ rs : List GetResult, (∀ r ∈ rs, r = GetResult.empty) →
      liveRun rs = List.replicate rs.length pingFrame := by
  intro rs
  induction rs with
  | nil => intro _; rfl
  | cons r rest ih =>
    intro h
    have hr : r = GetResult.empty := h r (List.mem_cons_self r rest)
    subst hr
    rw [liveRun, List.length_cons, List.replicate_succ]
    rw [ih (fun x hx => h x (List.mem_cons_of_mem _ hx))]

/-! ## Claims about the request handlers -/

/-- Claim C4 (confirmed): a publish with valid fields to an unknown room
returns the 404 room-not-found response and leaves the whole server
state, hence every room's message log and subscriber list, unchanged. -/
theorem publish_unknown_room_rejected_unchanged (room_id : String)
    (req : SendMessageRequest) (msg_id ts : String) (st : ServerState)
    (h1 : truthy req.user_id = true) (h2 : truthy req.user_name = true)
    (h3 : truthy req.message = true) (hroom : room_id ≠ "room1a2b3c") :
    sendMessagePost room_id req msg_id ts st = (roomNotFoundResp, st) ∧
    (sendMessagePost room_id req msg_id ts st).1.status = 404 := by
  have hmain : sendMessagePost room_id req msg_id ts st = (roomNotFoundResp, st) := by
    simp [sendMessagePost, h1, h2, h3, hroom]
  exact ⟨hmain, by rw [hmain]; rfl⟩

theorem publish_unknown_room_witness :
    sendMessagePost "ghost" { user_id := some "u", user_name := some "n", message := some "hi" }
        "id1" "t1" initialServerState = (roomNotFoundResp, initialServerState) :=
  (publish_unknown_room_rejected_unchanged "ghost"
    { user_id := some "u", user_name := some "n", message := some "hi" } "id1" "t1"
    initialServerState (by decide) (by decide) (by decide) (by decide)).1

/-- Claim C9 (confirmed): in both `JoinRoom.post` and `SendMessage.post`
the missing-field check runs before the room-existence check, so a
request naming an unknown room with a missing required field gets the
400 invalid-input response, not the 404. -/
theorem validation_precedes_room_check (room_id : String) (jreq : JoinRoomRequest)
    (sreq : SendMessageRequest) (msg_id ts : String) (st : ServerState)
    (_hroom : room_id ≠ "room1a2b3c")
    (hj : jreq.user_id = none ∨ jreq.user_name = none)
    (hs : sreq.user_id = none ∨ sreq.user_name = none ∨ sreq.message = none) :
    joinRoomPost room_id jreq = invalidJoinResp ∧
    (joinRoomPost room_id jreq).status = 400 ∧
    (sendMessagePost room_id sreq msg_id ts st).1 = invalidSendResp ∧
    (sendMessagePost room_id sreq msg_id ts st).1.status = 400 := by
  have hjr : joinRoomPost room_id jreq = invalidJoinResp := by
    rcases hj with h | h <;> simp [joinRoomPost, h, truthy]
  have hsr : (sendMessagePost room_id sreq msg_id ts st).1 = invalidSendResp := by
    rcases hs with h | h | h <;> simp [sendMessagePost, h, truthy]
  exact ⟨hjr, by rw [hjr]; rfl, hsr, by rw [hsr]; rfl⟩

theorem validation_precedes_room_check_witness :
    joinRoomPost "ghost" { user_id := none, user_name := some "n" } = invalidJoinResp ∧
    (joinRoomPost "ghost" { user_id := none, user_name := some "n" }).status = 400 ∧
    (sendMessagePost "ghost" { user_id := some "u", user_name := some "n", message := none }
        "id1" "t1" initialServerState).1 = invalidSendResp ∧
    (sendMessagePost "ghost" { user_id := some "u", user_name := some "n", message := none }
        "id1" "t1" initialServerState).1.status = 400 :=
  validation_precedes_room_check "ghost" { user_id := none, user_name := some "n" }
    { user_id := some "u", user_name := some "n", message := none } "id1" "t1"
    initialServerState (by decide) (Or.inl rfl) (Or.inr (Or.inr rfl))

/-- Claim C10 (confirmed): a publish request with an empty-string
`user_id`, `user_name` or `message` is rejected with the same 400
invalid-input response and unchanged state as a request with the field
absent, so no message log is touched. -/
theorem empty_field_rejected_as_missing (room_id : String) (req : SendMessageRequest)
    (msg_id ts : String) (st : ServerState)
    (h : req.user_id = some "" ∨ req.user_name = some "" ∨ req.message = some "") :
    sendMessagePost room_id req msg_id ts st = (invalidSendResp, st) ∧
    sendMessagePost room_id { user_id := none, user_name := none, message := none }
        msg_id ts st = (invalidSendResp, st) := by
  constructor
  · rcases h with h | h | h <;> simp [sendMessagePost, h, truthy]
  · simp [sendMessagePost, truthy]

theorem empty_field_rejected_as_missing_witness :
    sendMessagePost "room1a2b3c" { user_id := some "u", user_name := some "", message := some "hi" }
        "id1" "t1" initialServerState = (invalidSendResp, initialServerState) ∧
    sendMessagePost "room1a2b3c" { user_id := none, user_name := none, message := none }
        "id1" "t1" initialServerState = (invalidSendResp, initialServerState) :=
  empty_field_rejected_as_missing "room1a2b3c"
    { user_id := some "u", user_name := some "", message := some "hi" } "id1" "t1"
    initialServerState (Or.inr (Or.inl rfl))

/-! ## Claim C2: delivery failure during fan-out -/



/-- Claim C2 (code_bug): evaluating `SendMessage.post` at a room whose
client list is `[0, 1, 2]` with `put` failing on queue 0.  The publisher
gets the 200 success and the failing queue 0 is removed, but queue 1 —
a member at the instant of iteration, still a member afterwards — never
receives the message: `list.remove` during iteration shifts queue 1 to
position 0 while the iterator moves on to position 1, skipping it.
Queue 2 does receive the frame. -/
theorem fanout_skips_subscriber_after_failure :
    (sendMessagePost "room1a2b3c" c2req "id1" "t1" c2state).1.status = 200 ∧
    (sendMessagePost "room1a2b3c" c2req "id1" "t1" c2state).2.room_clients "room1a2b3c" = [1, 2] ∧
    1 ∈ (sendMessagePost "room1a2b3c" c2req "id1" "t1" c2state).2.room_clients "room1a2b3c" ∧
    (sendMessagePost "room1a2b3c" c2req "id1" "t1" c2state).2.queues 1 = [] ∧
    (sendMessagePost "room1a2b3c" c2req "id1" "t1" c2state).2.queues 2 =
      [sseFrame (msgJson (mkMessage "room1a2b3c" c2req "id1" "t1"))] := by
  refine ⟨rfl, rfl, by decide, rfl, rfl⟩

/-! ## Claim C6: unsubscribe idempotence -/

/-- Claim C6 (confirmed): the cleanup's conditional removal of an
already-absent handle is a no-op (and, being a total function, raises
nothing), and once a handle is out of the room's client list a valid
publish still succeeds with status 200 and leaves that handle's queue
untouched. -/
theorem unsubscribe_noop_and_publish_skips (cl : List Nat) (sid : Nat) (hcl : sid ∉ cl)
    (req : SendMessageRequest) (msg_id ts : String) (st : ServerState)
    (h1 : truthy req.user_id = true) (h2 : truthy req.user_name = true)
    (h3 : truthy req.message = true)
    (hq : sid ∉ st.room_clients "room1a2b3c") :
    removeClient cl sid = cl ∧
    (sendMessagePost "room1a2b3c" req msg_id ts st).1.status = 200 ∧
    (sendMessagePost "room1a2b3c" req msg_id ts st).2.queues sid = st.queues sid := by
  refine ⟨by simp [removeClient, hcl], ?_, ?_⟩
  · simp [sendMessagePost, h1, h2, h3]
  · simp only [sendMessagePost, h1, h2, h3, Bool.and_self, Bool.not_true,
      Bool.false_eq_true, if_false, ne_eq, not_true_eq_false, if_true]
    simp [fanoutIter_queues_not_mem _ _ _ _ sid hq]

theorem unsubscribe_noop_and_publish_skips_witness :
    removeClient [1, 2] 0 = [1, 2] ∧
    (sendMessagePost "room1a2b3c" c2req "id1" "t1" initialServerState).1.status = 200 ∧
    (sendMessagePost "room1a2b3c" c2req "id1" "t1" initialServerState).2.queues 0 =
      initialServerState.queues 0 :=
  unsubscribe_noop_and_publish_skips [1, 2] 0 (by decide) c2req "id1" "t1"
    initialServerState (by decide) (by decide) (by decide) (by decide)

/-! ## Claim C7: keep-alives in the LIVE loop -/

/-- Claim C7 (confirmed): a LIVE iteration whose 30-unit wait ends with
an empty queue emits exactly one keep-alive frame and the loop
continues, the keep-alive payload is the ping object framed like every
event, and a session idle for at least 90 time units (an all-`empty`
outcome sequence) emits at least 2 keep-alives — in fact only
keep-alives and no message events. -/
theorem idle_live_session_emits_pings (rest : List GetResult) (rs : List GetResult)
    (hidle : ∀ r ∈ rs, r = GetResult.empty) (hdur : 90 ≤ idleElapsed rs) :
    liveRun (GetResult.empty :: rest) = pingFrame :: liveRun rest ∧
    pingFrame = sseFrame pingPayload ∧
    2 ≤ (liveRun rs).count pingFrame ∧
    ∀ e ∈ liveRun rs, e = pingFrame := by
  have hrep : liveRun rs = List.replicate rs.length pingFrame := liveRun_all_empty rs hidle
  have hlen : 3 ≤ rs.length := by
    unfold idleElapsed at hdur
    omega
  refine ⟨rfl, rfl, ?_, ?_⟩
  · rw [hrep, List.count_replicate_self]
    omega
  · intro e he
    rw [hrep] at he
    exact (List.eq_of_mem_replicate he)

theorem idle_live_session_emits_pings_witness :
    liveRun [GetResult.empty] = pingFrame :: liveRun [] ∧
    pingFrame = sseFrame pingPayload ∧
    2 ≤ (liveRun [GetResult.empty, GetResult.empty, GetResult.empty]).count pingFrame ∧
    ∀ e ∈ liveRun [GetResult.empty, GetResult.empty, GetResult.empty], e = pingFrame :=
  idle_live_session_emits_pings []
    [GetResult.empty, GetResult.empty, GetResult.empty]
    (by decide) (by decide)

/-! ## Claim C8: message record shape and SSE framing -/

/-- Claim C8 (counterexample): the message record built by a successful
publish does not carry the spec's claimed field set — there is no
`"text"` key; the content key is `"message"`. -/
theorem message_field_named_message_not_text :
    (msgPairs (mkMessage "room1a2b3c"
        { user_id := some "u", user_name := some "n", message := some "hello" }
        "id1" "t1")).map Prod.fst ≠ specMessageFields ∧
    "text" ∉ (msgPairs (mkMessage "room1a2b3c"
        { user_id := some "u", user_name := some "n", message := some "hello" }
        "id1" "t1")).map Prod.fst := by
  refine ⟨by decide, by decide⟩

/-- Claim C8 (corrected): a message created by a successful publish has
exactly the keys `id, user_id, user_name, message, timestamp, room_id`
(the content key is `"message"`, not `"text"`), its `id` is the token
generated at publish time, and every event put on a subscriber queue is
framed as `"data: " + JSON payload + blank line`, as is the keep-alive. -/
theorem message_fields_and_framing (req : SendMessageRequest) (msg_id ts : String)
    (st : ServerState) (sid : Nat)
    (h1 : truthy req.user_id = true) (h2 : truthy req.user_name = true)
    (h3 : truthy req.message = true)
    (hcl : st.room_clients "room1a2b3c" = [sid]) (hbad : st.bad sid = false) :
    (msgPairs (mkMessage "room1a2b3c" req msg_id ts)).map Prod.fst =
      ["id", "user_id", "user_name", "message", "timestamp", "room_id"] ∧
    (mkMessage "room1a2b3c" req msg_id ts).id = msg_id ∧
    pingFrame = sseFrame pingPayload ∧
    (sendMessagePost "room1a2b3c" req msg_id ts st).2.queues sid =
      st.queues sid ++ [sseFrame (msgJson (mkMessage "room1a2b3c" req msg_id ts))] := by
  refine ⟨rfl, rfl, rfl, ?_⟩
  simp only [sendMessagePost, h1, h2, h3, Bool.and_self, Bool.not_true,
    Bool.false_eq_true, if_false, ne_eq, not_true_eq_false, if_true]
  simp [fanoutIter, hcl, fanoutGo, hbad, upd_same]

theorem message_fields_and_framing_witness :
    (msgPairs (mkMessage "room1a2b3c" c2req "id1" "t1")).map Prod.fst =
      ["id", "user_id", "user_name", "message", "timestamp", "room_id"] ∧
    (mkMessage "room1a2b3c" c2req "id1" "t1").id = "id1" ∧
    pingFrame = sseFrame pingPayload ∧
    (sendMessagePost "room1a2b3c" c2req "id1" "t1"
        { initialServerState with room_clients := fun r => if r = "room1a2b3c" then [7] else [] }).2.queues 7 =
      initialServerState.queues 7 ++ [sseFrame (msgJson (mkMessage "room1a2b3c" c2req "id1" "t1"))] :=
  message_fields_and_framing c2req "id1" "t1"
    { initialServerState with room_clients := fun r => if r = "room1a2b3c" then [7] else [] } 7
    (by decide) (by decide) (by decide) (by decide) (by decide)

/-! ## Unfolding lemmas for the broadcast loop and schedules -/

theorem fanoutIter_single_good (m : String) (sid : Nat) (qs : Nat → List String)
    (bad : Nat → Bool) (hbad : bad sid = false) :
    fanoutIter m [sid] qs bad = ([sid], upd qs sid (qs sid ++ [m])) := by
  have key : fanoutIter m [sid] qs bad =
      if bad sid then ([sid].erase sid, qs) else ([sid], upd qs sid (qs sid ++ [m])) := rfl
  rw [key, hbad]
  simp

theorem fanoutIter_pair_good (m : String) (qs : Nat → List String) (bad : Nat → Bool)
    (h0 : bad 0 = false) (h1 : bad 1 = false) :
    (fanoutIter m [0, 1] qs bad).1 = [0, 1] ∧
    (fanoutIter m [0, 1] qs bad).2 0 = qs 0 ++ [m] ∧
    (fanoutIter m [0, 1] qs bad).2 1 = qs 1 ++ [m] := by
  have key : fanoutIter m [0, 1] qs bad =
      if bad 0 then ([1], qs)
      else
        (if bad 1 then ([0], upd qs 0 (qs 0 ++ [m]))
         else ([0, 1], upd (upd qs 0 (qs 0 ++ [m])) 1 ((upd qs 0 (qs 0 ++ [m])) 1 ++ [m]))) := rfl
  rw [key, h0, h1]
  simp [upd]

theorem run_append (t1 : List Action) :
    ∀ (cfg : Config) (t2 : List Action), run cfg (t1 ++ t2) = run (run cfg t1) t2 := by
  induction t1 with
  | nil => intro cfg t2; rfl
  | cons a rest ih => intro cfg t2; rw [List.cons_append, run, run]; exact ih (step cfg a) t2

/-! ## Characterizations of single steps -/

theorem run_cons (cfg : Config) (a : Action) (rest : List Action) :
    run cfg (a :: rest) = run (step cfg a) rest := rfl

theorem step_appendLog (cfg : Config) (m : String) :
    step cfg (Action.appendLog m) = { cfg with log := cfg.log ++ [m] } := rfl

theorem step_fanout (cfg : Config) (m : String) :
    step cfg (Action.fanout m) =
      { cfg with clients := (fanoutIter m cfg.clients cfg.queues cfg.bad).1,
                 queues := (fanoutIter m cfg.clients cfg.queues cfg.bad).2 } := rfl

theorem step_register_connecting (cfg : Config) (sid : Nat)
    (hp : (cfg.sess sid).phase = Phase.connecting) :
    step cfg (Action.register sid) =
      { cfg with clients := cfg.clients ++ [sid],
                 queues := upd cfg.queues sid [],
                 sess := upd cfg.sess sid ⟨Phase.replaying 0, (cfg.sess sid).out⟩ } := by
  simp only [step, hp, if_true]

theorem step_register_skip (cfg : Config) (sid : Nat)
    (hp : (cfg.sess sid).phase ≠ Phase.connecting) :
    step cfg (Action.register sid) = cfg := by
  simp only [step, hp, if_false]

theorem step_replay_emit (cfg : Config) (sid i : Nat)
    (hp : (cfg.sess sid).phase = Phase.replaying i) (hi : i < cfg.log.length) :
    step cfg (Action.replayStep sid) =
      { cfg with sess := upd cfg.sess sid ⟨Phase.replaying (i + 1), (cfg.sess sid).out ++ [cfg.log.get ⟨i, hi⟩]⟩ } := by
  simp only [step, hp, dif_pos hi]

theorem step_replay_done (cfg : Config) (sid i : Nat)
    (hp : (cfg.sess sid).phase = Phase.replaying i) (hi : ¬ i < cfg.log.length) :
    step cfg (Action.replayStep sid) =
      { cfg with sess := upd cfg.sess sid ⟨Phase.live, (cfg.sess sid).out⟩ } := by
  simp only [step, hp, dif_neg hi]

theorem step_deliver_cons (cfg : Config) (sid : Nat) (m : String) (rest : List String)
    (hp : (cfg.sess sid).phase = Phase.live) (hq : cfg.queues sid = m :: rest) :
    step cfg (Action.deliver sid) =
      { cfg with queues := upd cfg.queues sid rest,
                 sess := upd cfg.sess sid ⟨Phase.live, (cfg.sess sid).out ++ [m]⟩ } := by
  simp only [step, hp, hq, if_true]

theorem step_deliver_nil (cfg : Config) (sid : Nat)
    (hp : (cfg.sess sid).phase = Phase.live) (hq : cfg.queues sid = []) :
    step cfg (Action.deliver sid) = cfg := by
  simp only [step, hp, hq, if_true]

theorem step_deliver_skip (cfg : Config) (sid : Nat)
    (hp : (cfg.sess sid).phase ≠ Phase.live) :
    step cfg (Action.deliver sid) = cfg := by
  simp only [step, hp, if_false]

theorem step_close_closed (cfg : Config) (sid : Nat) (c : ExitCause)
    (hp : (cfg.sess sid).phase = Phase.closed) :
    step cfg (Action.close sid c) = cfg := by
  simp only [step, hp, if_true]

theorem step_close_cleanup (cfg : Config) (sid : Nat) (c : ExitCause)
    (hp : (cfg.sess sid).phase ≠ Phase.closed) :
    step cfg (Action.close sid c) =
      { cfg with clients := removeClient cfg.clients sid,
                 sess := upd cfg.sess sid ⟨Phase.closed, (cfg.sess sid).out⟩ } := by
  simp only [step, hp, if_false]

/-! ## Claim C1: the replay/live boundary -/



/-- Claim C1 (counterexample): `"hi"` is in the Message Log at
connection time (the prefix before `register` has already appended it),
yet the session's connection receives it twice — once via replay and
once via the live queue — refuting exactly-once delivery. -/
theorem stream_replay_overlap_duplicate :
    (run cfg0 (c1trace.take 1)).log = ["hi"] ∧
    ((run cfg0 c1trace).sess 0).out = ["hi", "hi"] ∧
    ((run cfg0 c1trace).sess 0).out.count "hi" = 2 := by
  refine ⟨rfl, rfl, rfl⟩

/-- Publishes to a room with no registered clients only extend the log. -/
theorem run_pubs_no_clients :
    ∀ (ms : List String) (cfg : Config), cfg.clients = [] →
      run cfg (pubsActs ms) = { cfg with log := cfg.log ++ ms } := by
  intro ms
  induction ms with
  | nil =>
    intro cfg h
    show cfg = { cfg with log := cfg.log ++ [] }
    rw [List.append_nil]
  | cons m ms ih =>
    intro cfg h
    obtain ⟨log, clients, queues, sess, bds⟩ := cfg
    simp only at h
    subst h
    show run (step (step ⟨log, [], queues, sess, bds⟩ (Action.appendLog m)) (Action.fanout m))
        (pubsActs ms) = _
    rw [show step (step (⟨log, [], queues, sess, bds⟩ : Config) (Action.appendLog m)) (Action.fanout m)
        = (⟨log ++ [m], [], queues, sess, bds⟩ : Config) from rfl]
    rw [ih ⟨log ++ [m], [], queues, sess, bds⟩ rfl]
    simp

/-- From phase `replaying i` with `k` log entries left, the replay loop
emits the rest of the log in order and goes live. -/
theorem run_replay_emits_tail (sid : Nat) :
    ∀ (k : Nat) (cfg : Config) (i : Nat),
      (cfg.sess sid).phase = Phase.replaying i →
      cfg.log.length = i + k →
      run cfg (List.replicate (k + 1) (Action.replayStep sid)) =
        { cfg with sess := upd cfg.sess sid ⟨Phase.live, (cfg.sess sid).out ++ cfg.log.drop i⟩ } := by
  intro k
  induction k with
  | zero =>
    intro cfg i hp hl
    have hni : ¬ i < cfg.log.length := by omega
    have hdrop : cfg.log.drop i = [] := List.drop_eq_nil_of_le (by omega)
    rw [show List.replicate (0 + 1) (Action.replayStep sid) = [Action.replayStep sid] from rfl]
    rw [show run cfg [Action.replayStep sid] = step cfg (Action.replayStep sid) from rfl]
    rw [step_replay_done cfg sid i hp hni, hdrop, List.append_nil]
  | succ n ih =>
    intro cfg i hp hl
    have hi : i < cfg.log.length := by omega
    rw [show List.replicate (n + 1 + 1) (Action.replayStep sid)
        = Action.replayStep sid :: List.replicate (n + 1) (Action.replayStep sid) from rfl]
    rw [run_cons, step_replay_emit cfg sid i hp hi]
    rw [ih { cfg with sess := upd cfg.sess sid ⟨Phase.replaying (i + 1), (cfg.sess sid).out ++ [cfg.log.get ⟨i, hi⟩]⟩ }
        (i + 1) (by simp [upd_same]) (by show cfg.log.length = i + 1 + n; omega)]
    simp only [upd_upd, upd_same]
    rw [List.append_assoc, List.singleton_append]
    rw [show cfg.log.get ⟨i, hi⟩ :: cfg.log.drop (i + 1) = cfg.log.drop i from
      List.getElem_cons_drop cfg.log i hi]

/-- From LIVE with the only registered client being this session's
healthy queue, alternating publishes and queue reads emit each new
message once, in order. -/
theorem run_live_drain (sid : Nat) :
    ∀ (ms : List String) (cfg : Config),
      (cfg.sess sid).phase = Phase.live →
      cfg.clients = [sid] →
      cfg.queues sid = [] →
      cfg.bad sid = false →
      run cfg (liveActs sid ms) =
        { cfg with log := cfg.log ++ ms,
                   sess := upd cfg.sess sid ⟨Phase.live, (cfg.sess sid).out ++ ms⟩ } := by
  intro ms
  induction ms with
  | nil =>
    intro cfg hp hcl hq hb
    have hsess : upd cfg.sess sid ⟨Phase.live, (cfg.sess sid).out ++ []⟩ = cfg.sess := by
      rw [List.append_nil]
      exact upd_self cfg.sess sid _ (by rw [← hp])
    show cfg = _
    rw [List.append_nil, hsess]
  | cons m ms ih =>
    intro cfg hp hcl hq hb
    obtain ⟨log, clients, queues, sess, bds⟩ := cfg
    simp only at hp hcl hq hb
    subst hcl
    have hfr := fanoutIter_single_good m sid queues bds hb
    show run (step (step (step ⟨log, [sid], queues, sess, bds⟩ (Action.appendLog m))
        (Action.fanout m)) (Action.deliver sid)) (liveActs sid ms) = _
    rw [show step (⟨log, [sid], queues, sess, bds⟩ : Config) (Action.appendLog m)
        = (⟨log ++ [m], [sid], queues, sess, bds⟩ : Config) from rfl]
    have hstep2 : step (⟨log ++ [m], [sid], queues, sess, bds⟩ : Config) (Action.fanout m)
        = (⟨log ++ [m], [sid], upd queues sid (queues sid ++ [m]), sess, bds⟩ : Config) := by
      show (⟨log ++ [m], (fanoutIter m [sid] queues bds).1,
        (fanoutIter m [sid] queues bds).2, sess, bds⟩ : Config) = _
      rw [hfr]
    rw [hstep2]
    have hq2 : (upd queues sid (queues sid ++ [m])) sid = m :: [] := by
      rw [upd_same, hq]
      rfl
    have hstep3 : step (⟨log ++ [m], [sid], upd queues sid (queues sid ++ [m]), sess, bds⟩ : Config)
        (Action.deliver sid)
        = (⟨log ++ [m], [sid], upd (upd queues sid (queues sid ++ [m])) sid [],
            upd sess sid ⟨Phase.live, (sess sid).out ++ [m]⟩, bds⟩ : Config) := by
      exact step_deliver_cons _ sid m [] hp hq2
    rw [hstep3]
    rw [ih ⟨log ++ [m], [sid], upd (upd queues sid (queues sid ++ [m])) sid [],
        upd sess sid ⟨Phase.live, (sess sid).out ++ [m]⟩, bds⟩
        (by simp [upd_same]) rfl (by simp [upd_same]) hb]
    simp only [upd_upd, upd_same]
    rw [upd_self queues sid [] hq]
    simp [List.append_assoc]

/-- Claim C1 (corrected): with no publish overlapping the session's
connect/replay window — every publish either completes before the
session registers or starts after replay has finished — the session's
connection receives exactly the connect-time log once, in order,
followed by each subsequently published message exactly once, in order;
and this equals the room's final Message Log. -/
theorem stream_sequential_exactly_once (sid : Nat) (before after : List String) :
    ((run cfg0 (seqSession sid before after)).sess sid).out = before ++ after ∧
    (run cfg0 (seqSession sid before after)).log = before ++ after := by
  have hsplit : seqSession sid before after
      = pubsActs before ++ ([Action.register sid]
        ++ (replayActs sid before.length ++ liveActs sid after)) := by
    simp [seqSession]
  rw [hsplit, run_append, run_append, run_append]
  rw [run_pubs_no_clients before cfg0 rfl]
  have hA : run { cfg0 with log := cfg0.log ++ before } [Action.register sid]
      = (⟨before, [sid], upd cfg0.queues sid [],
          upd cfg0.sess sid ⟨Phase.replaying 0, []⟩, cfg0.bad⟩ : Config) := by
    show step { cfg0 with log := cfg0.log ++ before } (Action.register sid) = _
    rw [step_register_connecting _ sid rfl]
    show (⟨[] ++ before, [] ++ [sid], upd cfg0.queues sid [],
      upd cfg0.sess sid ⟨Phase.replaying 0, []⟩, cfg0.bad⟩ : Config) = _
    rw [List.nil_append, List.nil_append]
  rw [hA]
  rw [show replayActs sid before.length
      = List.replicate (before.length + 1) (Action.replayStep sid) from rfl]
  rw [run_replay_emits_tail sid before.length
      (⟨before, [sid], upd cfg0.queues sid [], upd cfg0.sess sid ⟨Phase.replaying 0, []⟩, cfg0.bad⟩ : Config)
      0 (by simp [upd_same]) (by simp)]
  simp only [upd_upd, upd_same, List.drop_zero, List.nil_append]
  rw [run_live_drain sid after
      (⟨before, [sid], upd cfg0.queues sid [], upd cfg0.sess sid ⟨Phase.live, before⟩, cfg0.bad⟩ : Config)
      (by simp [upd_same]) rfl (by simp [upd_same]) rfl]
  simp only [upd_upd, upd_same]
  exact ⟨trivial, trivial⟩

/-! ## Claim C3: ordering across subscribers vs the log -/



/-- Claim C3 (counterexample): under racing publishes both subscribers
observe `["m2", "m1"]` — the same order as each other — but the Message
Log reads `["m1", "m2"]`, so the observed order does not equal the
log/publish order, refuting the claim as stated. -/
theorem fanout_order_differs_from_log :
    ((run cfg0 c3trace).sess 0).out = ["m2", "m1"] ∧
    ((run cfg0 c3trace).sess 1).out = ["m2", "m1"] ∧
    (run cfg0 c3trace).log = ["m1", "m2"] ∧
    ((run cfg0 c3trace).sess 0).out ≠ (run cfg0 c3trace).log := by
  refine ⟨rfl, rfl, rfl, by decide⟩





theorem bothLiveInv_step (cfg : Config) (a : Action) (ha : broadcastAct a = true)
    (h : BothLiveInv cfg) : BothLiveInv (step cfg a) := by
  obtain ⟨hcl, hp0, hp1, hb0, hb1, hout⟩ := h
  cases a with
  | register sid => simp [broadcastAct] at ha
  | replayStep sid => simp [broadcastAct] at ha
  | close sid c => simp [broadcastAct] at ha
  | appendLog m => exact ⟨hcl, hp0, hp1, hb0, hb1, hout⟩
  | fanout m =>
    rw [step_fanout, hcl]
    obtain ⟨hf1, hf20, hf21⟩ := fanoutIter_pair_good m cfg.queues cfg.bad hb0 hb1
    refine ⟨hf1, hp0, hp1, hb0, hb1, ?_⟩
    show (cfg.sess 0).out ++ (fanoutIter m [0, 1] cfg.queues cfg.bad).2 0
        = (cfg.sess 1).out ++ (fanoutIter m [0, 1] cfg.queues cfg.bad).2 1
    rw [hf20, hf21, ← List.append_assoc, ← List.append_assoc, hout]
  | deliver sid =>
    have hsid : sid = 0 ∨ sid = 1 := by
      simpa [broadcastAct] using ha
    rcases hsid with hsid | hsid <;> subst hsid
    · cases hq : cfg.queues 0 with
      | nil =>
        rw [step_deliver_nil cfg 0 hp0 hq]
        exact ⟨hcl, hp0, hp1, hb0, hb1, hout⟩
      | cons m rest =>
        rw [step_deliver_cons cfg 0 m rest hp0 hq]
        refine ⟨hcl, ?_, ?_, hb0, hb1, ?_⟩
        · show ((upd cfg.sess 0 ⟨Phase.live, (cfg.sess 0).out ++ [m]⟩) 0).phase = Phase.live
          rw [upd_same]
        · show ((upd cfg.sess 0 ⟨Phase.live, (cfg.sess 0).out ++ [m]⟩) 1).phase = Phase.live
          rw [upd_ne _ _ _ _ (by decide)]
          exact hp1
        · show ((upd cfg.sess 0 ⟨Phase.live, (cfg.sess 0).out ++ [m]⟩) 0).out ++ (upd cfg.queues 0 rest) 0
            = ((upd cfg.sess 0 ⟨Phase.live, (cfg.sess 0).out ++ [m]⟩) 1).out ++ (upd cfg.queues 0 rest) 1
          rw [upd_same, upd_same, upd_ne _ _ _ _ (by decide : (1 : Nat) ≠ 0),
            upd_ne _ _ _ _ (by decide : (1 : Nat) ≠ 0)]
          rw [List.append_assoc, List.singleton_append, ← hq, hout]
    · cases hq : cfg.queues 1 with
      | nil =>
        rw [step_deliver_nil cfg 1 hp1 hq]
        exact ⟨hcl, hp0, hp1, hb0, hb1, hout⟩
      | cons m rest =>
        rw [step_deliver_cons cfg 1 m rest hp1 hq]
        refine ⟨hcl, ?_, ?_, hb0, hb1, ?_⟩
        · show ((upd cfg.sess 1 ⟨Phase.live, (cfg.sess 1).out ++ [m]⟩) 0).phase = Phase.live
          rw [upd_ne _ _ _ _ (by decide)]
          exact hp0
        · show ((upd cfg.sess 1 ⟨Phase.live, (cfg.sess 1).out ++ [m]⟩) 1).phase = Phase.live
          rw [upd_same]
        · show ((upd cfg.sess 1 ⟨Phase.live, (cfg.sess 1).out ++ [m]⟩) 0).out ++ (upd cfg.queues 1 rest) 0
            = ((upd cfg.sess 1 ⟨Phase.live, (cfg.sess 1).out ++ [m]⟩) 1).out ++ (upd cfg.queues 1 rest) 1
          rw [upd_same, upd_same, upd_ne _ _ _ _ (by decide : (0 : Nat) ≠ 1),
            upd_ne _ _ _ _ (by decide : (0 : Nat) ≠ 1)]
          rw [List.append_assoc, List.singleton_append, ← hq, hout]

theorem bothLiveInv_run :
    ∀ (tr : List Action) (cfg : Config), (∀ a ∈ tr, broadcastAct a = true) →
      BothLiveInv cfg → BothLiveInv (run cfg tr) := by
  intro tr
  induction tr with
  | nil => intro cfg _ h; exact h
  | cons a rest ih =>
    intro cfg htr h
    rw [run_cons]
    exact ih (step cfg a) (fun b hb => htr b (List.mem_cons_of_mem a hb))
      (bothLiveInv_step cfg a (htr a (List.mem_cons_self a rest)) h)

/-- Claim C3 (corrected): for any interleaving of publishes (log appends
and locked fan-outs) with two subscribers that are live members
throughout, once both have drained their queues they have observed
exactly the same sequence of messages — the locked fan-out order is a
single order shared by all subscribers.  (By the counterexample, that
shared order can differ from the Message Log order when the publishes
race; with non-overlapping publishes the sequential schedule of C1 shows
it equals the log order.) -/
theorem subscribers_observe_same_order (tr : List Action) (cfg : Config)
    (htr : ∀ a ∈ tr, broadcastAct a = true) (hinv : BothLiveInv cfg)
    (hq0 : (run cfg tr).queues 0 = []) (hq1 : (run cfg tr).queues 1 = []) :
    ((run cfg tr).sess 0).out = ((run cfg tr).sess 1).out := by
  obtain ⟨_, _, _, _, _, hout⟩ := bothLiveInv_run tr cfg htr hinv
  rw [hq0, hq1, List.append_nil, List.append_nil] at hout
  exact hout





theorem subscribers_observe_same_order_witness :
    ((run cfgLive c3wtrace).sess 0).out = ((run cfgLive c3wtrace).sess 1).out :=
  subscribers_observe_same_order c3wtrace cfgLive (by decide)
    ⟨rfl, rfl, rfl, rfl, rfl, rfl⟩ rfl rfl

/-! ## Claim C5: guaranteed cleanup on session termination -/

theorem removeClient_sublist (cl : List Nat) (sid : Nat) :
    List.Sublist (removeClient cl sid) cl := by
  unfold removeClient
  by_cases h : sid ∈ cl
  · rw [if_pos h]
    exact List.erase_sublist sid cl
  · rw [if_neg h]

theorem not_mem_removeClient_self (cl : List Nat) (sid : Nat) (h : cl.count sid ≤ 1) :
    sid ∉ removeClient cl sid := by
  unfold removeClient
  by_cases hm : sid ∈ cl
  · rw [if_pos hm]
    have hpos : 0 < cl.count sid := List.count_pos_iff.mpr hm
    have herase : (cl.erase sid).count sid = cl.count sid - 1 := List.count_erase_self sid cl
    exact List.count_eq_zero.mp (by omega)
  · rw [if_neg hm]
    exact hm



theorem cleanInv_step (sid : Nat) (cfg : Config) (a : Action) (h : CleanInv sid cfg) :
    CleanInv sid (step cfg a) := by
  obtain ⟨hcount, hconn, hclosed⟩ := h
  cases a with
  | appendLog m => exact ⟨hcount, hconn, hclosed⟩
  | fanout m =>
    rw [step_fanout]
    have hsub := fanoutIter_clients_sublist m cfg.clients cfg.queues cfg.bad
    exact ⟨le_trans (hsub.count_le sid) hcount,
      fun hp hm => hconn hp (hsub.subset hm),
      fun hp hm => hclosed hp (hsub.subset hm)⟩
  | register sid' =>
    by_cases hp : (cfg.sess sid').phase = Phase.connecting
    · rw [step_register_connecting cfg sid' hp]
      by_cases he : sid = sid'
      · subst he
        have hnot : sid ∉ cfg.clients := hconn hp
        refine ⟨?_, ?_, ?_⟩
        · show (cfg.clients ++ [sid]).count sid ≤ 1
          rw [List.count_append, List.count_eq_zero.mpr hnot]
          simp
        · intro hp2
          simp [upd] at hp2
        · intro hp2
          simp [upd] at hp2
      · have hne : sid ≠ sid' := he
        refine ⟨?_, ?_, ?_⟩
        · show (cfg.clients ++ [sid']).count sid ≤ 1
          have hz : List.count sid [sid'] = 0 := List.count_eq_zero.mpr (by simp [hne])
          rw [List.count_append, hz]
          omega
        · intro hp2
          simp [upd, hne] at hp2
          intro hm
          rcases List.mem_append.mp hm with hm | hm
          · exact hconn hp2 hm
          · exact hne (by simpa using hm)
        · intro hp2
          simp [upd, hne] at hp2
          intro hm
          rcases List.mem_append.mp hm with hm | hm
          · exact hclosed hp2 hm
          · exact hne (by simpa using hm)
    · rw [step_register_skip cfg sid' hp]
      exact ⟨hcount, hconn, hclosed⟩
  | replayStep sid' =>
    cases hph : (cfg.sess sid').phase with
    | connecting =>
      rw [show step cfg (Action.replayStep sid') = cfg from by simp only [step, hph]]
      exact ⟨hcount, hconn, hclosed⟩
    | live =>
      rw [show step cfg (Action.replayStep sid') = cfg from by simp only [step, hph]]
      exact ⟨hcount, hconn, hclosed⟩
    | closed =>
      rw [show step cfg (Action.replayStep sid') = cfg from by simp only [step, hph]]
      exact ⟨hcount, hconn, hclosed⟩
    | replaying i =>
      by_cases hi : i < cfg.log.length
      · rw [step_replay_emit cfg sid' i hph hi]
        refine ⟨hcount, ?_, ?_⟩
        · intro hp2
          by_cases he : sid = sid'
          · subst he; simp [upd] at hp2
          · simp [upd, he] at hp2
            exact hconn hp2
        · intro hp2
          by_cases he : sid = sid'
          · subst he; simp [upd] at hp2
          · simp [upd, he] at hp2
            exact hclosed hp2
      · rw [step_replay_done cfg sid' i hph hi]
        refine ⟨hcount, ?_, ?_⟩
        · intro hp2
          by_cases he : sid = sid'
          · subst he; simp [upd] at hp2
          · simp [upd, he] at hp2
            exact hconn hp2
        · intro hp2
          by_cases he : sid = sid'
          · subst he; simp [upd] at hp2
          · simp [upd, he] at hp2
            exact hclosed hp2
  | deliver sid' =>
    by_cases hp : (cfg.sess sid').phase = Phase.live
    · cases hq : cfg.queues sid' with
      | nil =>
        rw [step_deliver_nil cfg sid' hp hq]
        exact ⟨hcount, hconn, hclosed⟩
      | cons m rest =>
        rw [step_deliver_cons cfg sid' m rest hp hq]
        refine ⟨hcount, ?_, ?_⟩
        · intro hp2
          by_cases he : sid = sid'
          · subst he; simp [upd] at hp2
          · simp [upd, he] at hp2
            exact hconn hp2
        · intro hp2
          by_cases he : sid = sid'
          · subst he; simp [upd] at hp2
          · simp [upd, he] at hp2
            exact hclosed hp2
    · rw [step_deliver_skip cfg sid' hp]
      exact ⟨hcount, hconn, hclosed⟩
  | close sid' c =>
    by_cases hp : (cfg.sess sid').phase = Phase.closed
    · rw [step_close_closed cfg sid' c hp]
      exact ⟨hcount, hconn, hclosed⟩
    · rw [step_close_cleanup cfg sid' c hp]
      by_cases he : sid = sid'
      · subst he
        refine ⟨?_, ?_, ?_⟩
        · exact le_trans ((removeClient_sublist cfg.clients sid).count_le sid) hcount
        · intro hp2
          simp [upd] at hp2
        · intro _
          exact not_mem_removeClient_self cfg.clients sid hcount
      · have hne : sid ≠ sid' := he
        refine ⟨?_, ?_, ?_⟩
        · exact le_trans ((removeClient_sublist cfg.clients sid').count_le sid) hcount
        · intro hp2
          simp [upd, hne] at hp2
          exact fun hm => hconn hp2 ((removeClient_sublist cfg.clients sid').subset hm)
        · intro hp2
          simp [upd, hne] at hp2
          exact fun hm => hclosed hp2 ((removeClient_sublist cfg.clients sid').subset hm)

theorem cleanInv_run :
    ∀ (tr : List Action) (cfg : Config) (sid : Nat),
      CleanInv sid cfg → CleanInv sid (run cfg tr) := by
  intro tr
  induction tr with
  | nil => intro cfg sid h; exact h
  | cons a rest ih =>
    intro cfg sid h
    rw [run_cons]
    exact ih (step cfg a) sid (cleanInv_step sid cfg a h)

/-- Claim C5 (confirmed): the `finally` cleanup is the same transition
for every exit cause (client disconnect, delivery error, error thrown by
the emit itself), and after any schedule of steps, a session whose
generator has terminated is no longer in the room's subscriber list. -/
theorem closed_session_not_in_subscriber_set (tr : List Action) (sid : Nat) (cfg : Config)
    (h : CleanInv sid cfg) :
    (∀ (c c' : ExitCause), step cfg (Action.close sid c) = step cfg (Action.close sid c')) ∧
    (((run cfg tr).sess sid).phase = Phase.closed → sid ∉ (run cfg tr).clients) :=
  ⟨fun _ _ => rfl, fun hcl => (cleanInv_run tr cfg sid h).2.2 hcl⟩



theorem closed_session_not_in_subscriber_set_witness :
    0 ∉ (run cfg0 c5wtrace).clients :=
  (closed_session_not_in_subscriber_set c5wtrace 0 cfg0
    ⟨by decide, by decide, by decide⟩).2 (by decide)

end RoomRant
